import Mathlib

/-!
Verification of the BrRegister annual-report scraping core.

The definitions below are shallow embeddings of the TypeScript source:
  - src/scrape-pdf.ts            (figure extraction from PDF text, PDF container validation,
                                  temp-file lifecycle of parsePdfAndExtractAarsresultat)
  - src/scrape-annual-reports.ts (downloadAndParsePdf, dedupeReports, upsertAnnualReport)
  - unnamed part_006             (fetchRegnskapApiEntries)
  - unnamed part_009             (isPlaceholderUrl, normalizeDocumentUrl, dedupeReports)

JavaScript strings are modelled as List Char, byte buffers as List Nat.
JavaScript numbers are modelled as Int; this is exact for every magnitude
below 2^53, which covers every value the theorems below evaluate.
-/

namespace BrRegister

/-! ### Character-level primitives modelling JS string operations -/

/-- A decimal digit, as tested by the regex class backslash-d (ASCII range). -/
def isDigitCh (c : Char) : Bool := '0' ≤ c && c ≤ '9'

/-- Whitespace as matched by the JS regex class backslash-s (common members:
space, tab, newline, carriage return, vertical tab, form feed, no-break space). -/
def isJsSpace (c : Char) : Bool :=
  c = ' ' || c = '\t' || c = '\n' || c = '\r' || c = '\u000b' || c = '\u000c' || c = ' '

/-- Lower-casing as performed by String.prototype.toLowerCase and the regex i flag,
restricted to the alphabets appearing in the scraped labels (ASCII plus the
Norwegian letters used in the source patterns). -/
def jsLowerChar (c : Char) : Char :=
  if 'A' ≤ c && c ≤ 'Z' then Char.ofNat (c.toNat + 32)
  else if c = 'Å' then 'å'
  else if c = 'Ø' then 'ø'
  else if c = 'Æ' then 'æ'
  else c

/-- Does the second list start with the first (exact elements)? -/
def leadsWith [DecidableEq α] : List α → List α → Bool
  | [], _ => true
  | _ :: _, [] => false
  | p :: ps, c :: cs => if p = c then leadsWith ps cs else false

/-- Case-insensitive prefix test. -/
def ciLeadsWith : List Char → List Char → Bool
  | [], _ => true
  | _ :: _, [] => false
  | p :: ps, c :: cs => jsLowerChar p = jsLowerChar c && ciLeadsWith ps cs

/-- Substring containment, as in JS String.prototype.includes. -/
def containsSub [DecidableEq α] (needle : List α) : List α → Bool
  | [] => leadsWith needle []
  | c :: rest => leadsWith needle (c :: rest) || containsSub needle rest

/-- Drop a case-insensitive prefix, returning the remainder on success. -/
def dropCiPart : List Char → List Char → Option (List Char)
  | [], s => some s
  | _ :: _, [] => none
  | p :: ps, c :: cs =>
    if jsLowerChar p = jsLowerChar c then dropCiPart ps cs else none

/-- String.prototype.trim. -/
def jsTrim (s : List Char) : List Char :=
  ((s.dropWhile isJsSpace).reverse.dropWhile isJsSpace).reverse

/-- String.prototype.split with separator a newline. -/
def splitLines : List Char → List (List Char)
  | [] => [[]]
  | c :: rest =>
    if c = '\n' then [] :: splitLines rest
    else
      match splitLines rest with
      | [] => [[c]]
      | l :: ls => (c :: l) :: ls

/-! ### The numeric text parser

In the source this is the inline cleaning step applied to every regex capture:
`value.replace(whitespace-run, empty).replace(period, empty).replace(comma, empty)`
followed by `parseInt(cleaned, 10)` with an `isNaN` guard
(src/scrape-pdf.ts, e.g. lines 643-654 and 792-803). -/

/-- Remove every whitespace, period and comma character (the three replace calls). -/
def cleanNumeral (s : List Char) : List Char :=
  s.filter (fun c => !(isJsSpace c || c = '.' || c = ','))

def digitVal (c : Char) : Nat := c.toNat - '0'.toNat

/-- Accumulate the leading digit run (helper for the parseInt model). -/
def parseDigitsAcc : Nat → List Char → Nat
  | acc, [] => acc
  | acc, c :: rest =>
    if isDigitCh c then parseDigitsAcc (acc * 10 + digitVal c) rest else acc

/-- Value of the maximal leading digit run; none when there is no leading digit. -/
def parseDigitsLead : List Char → Option Nat
  | [] => none
  | c :: rest =>
    if isDigitCh c then some (parseDigitsAcc (digitVal c) rest) else none

/-- Model of JS parseInt(s, 10) on separator-free input: an optional sign followed
by the maximal digit run; NaN is modelled as none.  Exact for values below 2^53;
every concrete evaluation in this file stays far below that bound. -/
def jsParseInt (s : List Char) : Option Int :=
  match s with
  | [] => none
  | c :: rest =>
    if c = '-' then (parseDigitsLead rest).map (fun n => -(Int.ofNat n))
    else if c = '+' then (parseDigitsLead rest).map (fun n => Int.ofNat n)
    else (parseDigitsLead (c :: rest)).map (fun n => Int.ofNat n)

/-- The numeric text parser of spec section 4.1: strip group separators, then parse. -/
def parseNumericText (s : String) : Option Int :=
  jsParseInt (cleanNumeral s.toList)

/-- Does the list begin with an optional sign followed by a digit?  This is the
exact condition under which the parseInt model yields a value. -/
def startsNumeric (s : List Char) : Bool :=
  match s with
  | [] => false
  | c :: rest =>
    if c = '-' || c = '+' then
      match rest with
      | [] => false
      | d :: _ => isDigitCh d
    else isDigitCh c

/-! ### Numeral-pattern matchers

Hand-compiled versions of the numeral regular expressions used throughout
src/scrape-pdf.ts.  Each matcher works at a fixed start position; scanning the
whole text for the leftmost match is done by scanMatch below, mirroring how a
JS regex without the g flag searches.  The JS backtracking preference order
(greedy quantifiers try the longest extent first) is preserved wherever a
continuation can reject a prefix. -/

/-- All remainders after matching the `(space? digit3)` star at the start,
paired with the iteration count, most iterations first (the JS preference
order for a greedy star). -/
def starRestsN : List Char → List (Nat × List Char)
  | c :: a :: b :: d :: rest =>
    if isJsSpace c then
      (if isDigitCh a && isDigitCh b && isDigitCh d then
        (starRestsN rest).map (fun p => (p.1 + 1, p.2)) else []) ++
      [(0, c :: a :: b :: d :: rest)]
    else
      (if isDigitCh c && isDigitCh a && isDigitCh b then
        (starRestsN (d :: rest)).map (fun p => (p.1 + 1, p.2)) else []) ++
      [(0, c :: a :: b :: d :: rest)]
  | [c, a, b] =>
    (if !isJsSpace c && isDigitCh c && isDigitCh a && isDigitCh b then
      [(1, ([] : List Char))] else []) ++ [(0, [c, a, b])]
  | s => [(0, s)]

/-- All remainders after matching the `(sep digit3)` star (required period or
comma thousands separator), most iterations first. -/
def starSepRestsN (sep : Char) : List Char → List (Nat × List Char)
  | c :: a :: b :: d :: rest =>
    if c = sep && isDigitCh a && isDigitCh b && isDigitCh d then
      (starSepRestsN sep rest).map (fun p => (p.1 + 1, p.2)) ++
      [(0, c :: a :: b :: d :: rest)]
    else [(0, c :: a :: b :: d :: rest)]
  | s => [(0, s)]

/-- All remainders after greedily matching one to three digits (three first,
JS preference order) followed by the given thousands-group star. -/
def digitsStarRests (star : List Char → List (Nat × List Char)) :
    List Char → List (Nat × List Char)
  | a :: b :: c :: rest =>
    (if isDigitCh a && isDigitCh b && isDigitCh c then star rest else []) ++
    (if isDigitCh a && isDigitCh b then star (c :: rest) else []) ++
    (if isDigitCh a then star (b :: c :: rest) else [])
  | [a, b] =>
    (if isDigitCh a && isDigitCh b then star [] else []) ++
    (if isDigitCh a then star [b] else [])
  | [a] => if isDigitCh a then star [] else []
  | [] => []

/-- All remainders of a full numeral match (optional minus sign, one to three
digits, thousands groups) at the start, in JS backtracking preference order.
When the head is a minus sign the signless alternative can never match, so
only the signed branch is generated. -/
def numRests (star : List Char → List (Nat × List Char)) (s : List Char) :
    List (Nat × List Char) :=
  match s with
  | '-' :: rest => digitsStarRests star rest
  | _ => digitsStarRests star s

/-- The capture corresponding to a remainder: the consumed prefix. -/
def captureOf (t rest : List Char) : List Char := t.take (t.length - rest.length)

/-- Greedy first match of the space-separated numeral regex at the start.  The
source regex repeats the thousands-group star twice; the duplicate matches the
same strings with the same first preference as a single star, so one star
models both. -/
def numAGreedyAt (s : List Char) : Option (List Char) :=
  ((numRests starRestsN s).head?).map (fun p => captureOf s p.2)

/-- Greedy first match of the period- or comma-separated numeral regex. -/
def numSepGreedyAt (sep : Char) (s : List Char) : Option (List Char) :=
  ((numRests (starSepRestsN sep) s).head?).map (fun p => captureOf s p.2)

/-- Greedy match of the plain digit-run regex `sign? digit(4,12)`. -/
def numBGreedyAt (s : List Char) : Option (List Char) :=
  match s with
  | '-' :: rest =>
    let run := rest.takeWhile isDigitCh
    if 4 ≤ run.length then some ('-' :: run.take 12) else none
  | _ =>
    let run := s.takeWhile isDigitCh
    if 4 ≤ run.length then some (run.take 12) else none

/-- Greedy match of the at-least-two-groups numeral regex used by the sum
inntekter scans: the first remainder, in preference order, with two or more
group iterations. -/
def numMin2GreedyAt (s : List Char) : Option (List Char) :=
  (((numRests starRestsN s).filter (fun p => 2 ≤ p.1)).head?).map
    (fun p => captureOf s p.2)

/-- Leftmost-match scan: try the position matcher at every start position, as a
JS regex search does. -/
def scanMatch (matchAt : List Char → Option (List Char)) : List Char → Option (List Char)
  | [] => matchAt []
  | c :: rest =>
    match matchAt (c :: rest) with
    | some r => some r
    | none => scanMatch matchAt rest

/-- First element of the list on which the function fires. -/
def firstSome : List α → (α → Option β) → Option β
  | [], _ => none
  | a :: rest, f =>
    match f a with
    | some b => some b
    | none => firstSome rest f

/-- First space-separated numeral in a line, cleaned and parsed; used by the
line-scan fallbacks.  No magnitude threshold here; each caller applies its own. -/
def firstNumA (line : List Char) : Option Int :=
  match scanMatch numAGreedyAt line with
  | some cap => if cap ≠ [] then jsParseInt (cleanNumeral cap) else none
  | none => none

/-- First at-least-two-groups numeral in a line, cleaned and parsed. -/
def firstNumMin2 (line : List Char) : Option Int :=
  match scanMatch numMin2GreedyAt line with
  | some cap => if cap ≠ [] then jsParseInt (cleanNumeral cap) else none
  | none => none

/-! ### Whole-text label-anchored patterns -/

/-- Consume the `(colon or space)+` separator greedily; the numeral that follows
cannot start with a separator character, so the maximal run is exact. -/
def dropSepPlus (s : List Char) : Option (List Char) :=
  let run := s.takeWhile (fun c => c = ':' || isJsSpace c)
  if run.isEmpty then none else some (s.drop run.length)

/-- Consume `space+` between label words. -/
def dropSpacePlus (s : List Char) : Option (List Char) :=
  let run := s.takeWhile isJsSpace
  if run.isEmpty then none else some (s.drop run.length)

/-- Consume `space*`. -/
def dropSpaceStar (s : List Char) : List Char := s.dropWhile isJsSpace

/-- Consume `space* newline space*`: the whitespace run must contain a newline,
and the match always ends at the end of the run because the numeral that
follows cannot start with whitespace. -/
def dropSpaceNewline (s : List Char) : Option (List Char) :=
  let run := s.takeWhile isJsSpace
  if run.contains '\n' then some (s.drop run.length) else none

/-- Consume the `(not digit)` star greedily; the numeral then starts at the
first digit, and a minus sign directly before it has already been consumed by
the run, exactly as the greedy JS engine behaves on success. -/
def dropNonDigits (s : List Char) : List Char := s.dropWhile (fun c => !isDigitCh c)

/-- Pattern shape `label (colon or space)+ NUM`. -/
def patLabelSep (label : List Char) (num : List Char → Option (List Char))
    (s : List Char) : Option (List Char) :=
  (dropCiPart label s).bind (fun r1 => (dropSepPlus r1).bind num)

/-- Pattern shape `label space* newline space* NUM`. -/
def patLabelNewline (label : List Char) (num : List Char → Option (List Char))
    (s : List Char) : Option (List Char) :=
  (dropCiPart label s).bind (fun r1 => (dropSpaceNewline r1).bind num)

/-- Pattern shape `label (not digit)* NUM`. -/
def patLabelNonDigit (label : List Char) (num : List Char → Option (List Char))
    (s : List Char) : Option (List Char) :=
  (dropCiPart label s).bind (fun r1 => num (dropNonDigits r1))

/-- Tails following each left parenthesis inside the maximal non-colon run,
leftmost first. -/
def parenTails : List Char → List (List Char)
  | [] => []
  | c :: rest =>
    if c = ':' then []
    else if c = '(' then rest :: parenTails rest
    else parenTails rest

/-- The parenthesis pattern `aarsresultat (not colon)* lparen NUM rparen`: the
greedy non-colon run backtracks from the rightmost parenthesis, and inside a
fixed parenthesis the numeral backtracks until the closing parenthesis follows,
exactly the JS engine order. -/
def patAarsParens (s : List Char) : Option (List Char) :=
  (dropCiPart ("årsresultat".toList) s).bind (fun r1 =>
    firstSome ((parenTails r1).reverse) (fun t =>
      firstSome (numRests starRestsN t) (fun p =>
        match p.2 with
        | ')' :: _ => some (captureOf t p.2)
        | _ => none)))

/-- The twelve aarsresultat patterns of extractAarsresultatFromPdfText
(src/scrape-pdf.ts lines 616-641), in source order. -/
def aarsresultatPatterns : List (List Char → Option (List Char)) :=
  [ patLabelSep ("årsresultat".toList) numAGreedyAt
  , patLabelSep ("årsresultat".toList) numBGreedyAt
  , fun s => (dropCiPart ("resultat".toList) s).bind (fun r1 =>
      (dropSpacePlus r1).bind (fun r2 => (dropCiPart ("for".toList) r2).bind (fun r3 =>
        (dropSpacePlus r3).bind (fun r4 => (dropCiPart ("året".toList) r4).bind (fun r5 =>
          (dropSepPlus r5).bind numAGreedyAt)))))
  , fun s => (dropCiPart ("årsresultatet".toList) s).bind (fun r1 =>
      (dropSpacePlus r1).bind (fun r2 => (dropCiPart ("er".toList) r2).bind (fun r3 =>
        (dropSepPlus r3).bind numAGreedyAt)))
  , patLabelSep ("nettoresultat".toList) numAGreedyAt
  , patLabelSep ("resultat".toList) numAGreedyAt
  , patLabelNewline ("årsresultat".toList) numAGreedyAt
  , patLabelSep ("årsresultat".toList) (numSepGreedyAt '.')
  , patLabelSep ("årsresultat".toList) (numSepGreedyAt ',')
  , patLabelNonDigit ("resultatregnskap".toList) numAGreedyAt
  , fun s => (dropCiPart ("resultat".toList) s).bind (fun r1 =>
      (dropSpacePlus r1).bind (fun r2 => (dropCiPart ("etter".toList) r2).bind (fun r3 =>
        (dropSpacePlus r3).bind (fun r4 => (dropCiPart ("skatt".toList) r4).bind (fun r5 =>
          (dropSepPlus r5).bind numAGreedyAt)))))
  , patAarsParens ]

/-- The eleven salgsinntekt patterns of extractSalgsinntektFromPdfText
(src/scrape-pdf.ts lines 765-789), in source order. -/
def salgsinntektPatterns : List (List Char → Option (List Char)) :=
  [ patLabelSep ("salgsinntekt".toList) numAGreedyAt
  , patLabelSep ("salgsinntekt".toList) numBGreedyAt
  , patLabelSep ("omsetning".toList) numAGreedyAt
  , patLabelSep ("omsetning".toList) numBGreedyAt
  , patLabelSep ("salgsinntekt".toList) (numSepGreedyAt '.')
  , patLabelSep ("omsetning".toList) (numSepGreedyAt '.')
  , patLabelNewline ("salgsinntekt".toList) numAGreedyAt
  , patLabelNewline ("omsetning".toList) numAGreedyAt
  , patLabelSep ("driftsinntekt".toList) numAGreedyAt
  , fun s => (dropCiPart ("total".toList) s).bind (fun r1 =>
      (dropCiPart ("inntekt".toList) (dropSpaceStar r1)).bind (fun r2 =>
        (dropSepPlus r2).bind numAGreedyAt))
  , patLabelSep ("inntekt".toList) numAGreedyAt ]

/-- The whole-text pattern pass: first pattern whose leftmost match yields a
truthy capture that parses (the isNaN guard of the source).  Note: there is
no magnitude threshold in this pass. -/
def runPatternPass (pats : List (List Char → Option (List Char)))
    (text : List Char) : Option Int :=
  firstSome pats (fun pat =>
    match scanMatch pat text with
    | some cap => if cap ≠ [] then jsParseInt (cleanNumeral cap) else none
    | none => none)

/-! ### Line-scan fallbacks -/

/-- Same-line regex of the aarsresultat label scan:
`aarsresultat (not digit)* NUM`, case-insensitively, searched in the line. -/
def aarsSameLineNum (line : List Char) : Option Int :=
  match scanMatch (patLabelNonDigit ("årsresultat".toList) numAGreedyAt) line with
  | some cap => if cap ≠ [] then jsParseInt (cleanNumeral cap) else none
  | none => none

/-- First numeral of the next line, when a next line exists. -/
def aarsNextLineNum : List (List Char) → Option Int
  | [] => none
  | next :: _ => firstNumA next

/-- Generic line loop of the table-scan fallbacks: the per-line step returns a
hit or the loop moves to the next line, exactly the for-loop-with-return shape
of the source. -/
def scanLoop (step : List Char → List (List Char) → Option β) :
    List (List Char) → Option β
  | [] => none
  | cur :: rest =>
    match step cur rest with
    | some r => some r
    | none => scanLoop step rest

/-- Line loop that also carries the previous line (for the scan whose window
starts at max(0, i - 1)). -/
def scanLoopPrev (step : Option (List Char) → List Char → List (List Char) → Option β) :
    Option (List Char) → List (List Char) → Option β
  | _, [] => none
  | prev, cur :: rest =>
    match step prev cur rest with
    | some r => some r
    | none => scanLoopPrev step (some cur) rest

/-- The first n elements of a list paired with offsets starting at k (the
lookahead windows of the line scans). -/
def takeWithOffsets : Nat → Int → List (List Char) → List (Int × List Char)
  | 0, _, _ => []
  | _ + 1, _, [] => []
  | n + 1, k, l :: ls => (k, l) :: takeWithOffsets n (k + 1) ls

/-- Per-line step of the first aarsresultat fallback (lines 661-694): on a line
containing the aarsresultat label, accept a numeral with magnitude above 100
from the same line, else from the next line; never from an earlier line.  The
first component of a hit is the offset of the source line relative to the
label line. -/
def aarsLabelStep (cur : List Char) (rest : List (List Char)) : Option (Int × Int) :=
  if containsSub ("årsresultat".toList) (cur.map jsLowerChar) then
    match aarsSameLineNum cur with
    | some v =>
      if 100 < v.natAbs then some (0, v)
      else
        match aarsNextLineNum rest with
        | some w => if 100 < w.natAbs then some (1, w) else none
        | none => none
    | none =>
      match aarsNextLineNum rest with
      | some w => if 100 < w.natAbs then some (1, w) else none
      | none => none
  else none

/-- First fallback of extractAarsresultatFromPdfText. -/
def aarsresultatLabelScan : List (List Char) → Option (Int × Int) :=
  scanLoop aarsLabelStep

/-- Keywords of the second aarsresultat fallback (lines 697-720). -/
def resultatKeywords : List (List Char) :=
  ["resultat etter skatt".toList, "nettoresultat".toList, "resultat for året".toList]

/-- Per-line step of the second fallback: keyword lines, same line only,
magnitude above 100. -/
def aarsKeywordStep (cur : List Char) (_rest : List (List Char)) : Option (Int × Int) :=
  if resultatKeywords.any (fun kw => containsSub kw (cur.map jsLowerChar)) then
    match firstNumA cur with
    | some v => if 100 < v.natAbs then some (0, v) else none
    | none => none
  else none

/-- Second fallback of extractAarsresultatFromPdfText. -/
def aarsresultatKeywordScan : List (List Char) → Option (Int × Int) :=
  scanLoop aarsKeywordStep

/-- Per-line step of the last-resort aarsresultat fallback (lines 723-756):
lines containing the word resultat, same line then next line, magnitude above
100. -/
def aarsLastResortStep (cur : List Char) (rest : List (List Char)) : Option (Int × Int) :=
  if containsSub ("resultat".toList) (cur.map jsLowerChar) then
    match firstNumA cur with
    | some v =>
      if 100 < v.natAbs then some (0, v)
      else
        match aarsNextLineNum rest with
        | some w => if 100 < w.natAbs then some (1, w) else none
        | none => none
    | none =>
      match aarsNextLineNum rest with
      | some w => if 100 < w.natAbs then some (1, w) else none
      | none => none
  else none

/-- Last-resort fallback of extractAarsresultatFromPdfText. -/
def aarsresultatLastResortScan : List (List Char) → Option (Int × Int) :=
  scanLoop aarsLastResortStep

/-- extractAarsresultatFromPdfText (src/scrape-pdf.ts line 610): whole-text
pattern pass, then the three line-scan fallbacks, in source order. -/
def extractAarsresultatFromPdfText (pdfText : List Char) : Option Int :=
  match runPatternPass aarsresultatPatterns pdfText with
  | some v => some v
  | none =>
    let lines := splitLines pdfText
    match aarsresultatLabelScan lines with
    | some p => some p.2
    | none =>
      match aarsresultatKeywordScan lines with
      | some p => some p.2
      | none =>
        match aarsresultatLastResortScan lines with
        | some p => some p.2
        | none => none

/-- Keywords of the salgsinntekt line scan (line 809). -/
def salgsinntektKeywords : List (List Char) :=
  ["salgsinntekt".toList, "omsetning".toList, "driftsinntekt".toList,
   "total inntekt".toList, "totalinntekt".toList]

/-- Candidate lines of the salgsinntekt scan at a keyword line: the loop bounds
are max(0, i - 1) to min(i + 5, length), so the window is the previous line
when it exists, the keyword line, then up to four following lines.  Offsets are
relative to the keyword line. -/
def salgsCandidateLines (prev : Option (List Char)) (cur : List Char)
    (rest : List (List Char)) : List (Int × List Char) :=
  (match prev with
   | some p => [((-1 : Int), p)]
   | none => []) ++ [((0 : Int), cur)] ++ takeWithOffsets 4 1 rest

/-- Per-line step of the salgsinntekt line scan (lines 812-836): on a keyword
line, the first numeral above 1000 found in the candidate window, which starts
one line before the keyword line. -/
def salgsStep (prev : Option (List Char)) (cur : List Char)
    (rest : List (List Char)) : Option (Int × Int) :=
  if salgsinntektKeywords.any (fun kw => containsSub kw (cur.map jsLowerChar)) then
    firstSome (salgsCandidateLines prev cur rest)
      (fun p => match firstNumA p.2 with
        | some v => if 1000 < v then some (p.1, v) else none
        | none => none)
  else none

/-- Line-scan fallback of extractSalgsinntektFromPdfText. -/
def salgsinntektLineScan : Option (List Char) → List (List Char) → Option (Int × Int) :=
  scanLoopPrev salgsStep

/-- extractSalgsinntektFromPdfText (src/scrape-pdf.ts line 762): whole-text
pattern pass, then the keyword line scan. -/
def extractSalgsinntektFromPdfText (pdfText : List Char) : Option Int :=
  match runPatternPass salgsinntektPatterns pdfText with
  | some v => some v
  | none => (salgsinntektLineScan none (splitLines pdfText)).map (fun p => p.2)

/-- Per-line step of the main line scan of extractSumInntekterFromPdfText
(lines 887-924): lines containing both the word sum and a revenue word; the
same line is searched with the at-least-two-groups numeral regex, then up to
four following lines, always with the threshold 1000. -/
def sumStep (cur : List Char) (rest : List (List Char)) : Option (Int × Int) :=
  if containsSub ("sum".toList) (cur.map jsLowerChar) &&
     (containsSub ("inntekter".toList) (cur.map jsLowerChar) ||
      containsSub ("inntekt".toList) (cur.map jsLowerChar)) then
    match (match firstNumMin2 cur with
           | some v => if 1000 < v then some ((0 : Int), v) else none
           | none => none) with
    | some r => some r
    | none =>
      firstSome (takeWithOffsets 4 1 rest)
        (fun p => match firstNumMin2 p.2 with
          | some v => if 1000 < v then some (p.1, v) else none
          | none => none)
  else none

/-- Main line scan of extractSumInntekterFromPdfText. -/
def sumInntekterLineScan : List (List Char) → Option (Int × Int) :=
  scanLoop sumStep

/-- Line loop that carries the two previous lines (for the scan whose window
starts at max(0, i - 2)). -/
def scanLoopPrev2
    (step : Option (List Char) → Option (List Char) → List Char →
      List (List Char) → Option β) :
    Option (List Char) → Option (List Char) → List (List Char) → Option β
  | _, _, [] => none
  | prev2, prev1, cur :: rest =>
    match step prev2 prev1 cur rest with
    | some r => some r
    | none => scanLoopPrev2 step prev1 (some cur) rest

/-- Candidate lines of the last-resort sum scan at a trigger line: the loop
bounds are max(0, i - 2) to min(i + 3, length), so the window spans the two
lines before the trigger line, the trigger line itself, and up to two lines
after it.  Offsets are relative to the trigger line. -/
def sumLastResortCandidates (prev2 prev1 : Option (List Char)) (cur : List Char)
    (rest : List (List Char)) : List (Int × List Char) :=
  (match prev2 with
   | some p => [((-2 : Int), p)]
   | none => []) ++
  (match prev1 with
   | some p => [((-1 : Int), p)]
   | none => []) ++ [((0 : Int), cur)] ++ takeWithOffsets 2 1 rest

/-- Per-line step of the last-resort scan of extractSumInntekterFromPdfText
(lines 926-946): on a line containing sum or a revenue word (an OR trigger),
the first at-least-two-groups numeral above 100000 found in the candidate
window, which starts two lines before the trigger line. -/
def sumLastResortStep (prev2 prev1 : Option (List Char)) (cur : List Char)
    (rest : List (List Char)) : Option (Int × Int) :=
  if containsSub ("sum".toList) (cur.map jsLowerChar) ||
     containsSub ("inntekter".toList) (cur.map jsLowerChar) ||
     containsSub ("inntekt".toList) (cur.map jsLowerChar) then
    firstSome (sumLastResortCandidates prev2 prev1 cur rest)
      (fun p => match firstNumMin2 p.2 with
        | some v => if 100000 < v then some (p.1, v) else none
        | none => none)
  else none

/-- Last-resort line scan of extractSumInntekterFromPdfText. -/
def sumInntekterLastResortScan : List (List Char) → Option (Int × Int) :=
  scanLoopPrev2 sumLastResortStep none none

/-! ### Report deduplication (dedupeReports) -/

/-- Document reference carried by an annual report (title and url of the
AnnualReportDocument interface; the optional metadata fields play no role in
deduplication). -/
structure AnnualReportDocument where
  title : List Char
  url : List Char
deriving Repr, DecidableEq

/-- AnnualReportPayload: the strategy tag and the discovered documents. -/
structure AnnualReportPayload where
  source : List Char
  documents : List AnnualReportDocument
deriving Repr, DecidableEq

/-- AnnualReport: a year with its payload. -/
structure AnnualReport where
  year : Int
  data : AnnualReportPayload
deriving Repr, DecidableEq

/-- JS Map.set semantics: an existing key keeps its insertion position and
receives the new value; a new key is appended. -/
def jsMapSet (m : List (Int × AnnualReport)) (k : Int) (v : AnnualReport) :
    List (Int × AnnualReport) :=
  if m.any (fun p => p.1 = k) then
    m.map (fun p => if p.1 = k then (k, v) else p)
  else m ++ [(k, v)]

/-- dedupeReports (src/scrape-annual-reports.ts line 1324 and part_009 line
1298, textually identical): reports with a falsy year are skipped (the NaN
guard of the source has no counterpart for integer-modelled years), the rest
are written into a year-keyed map, so the last report for each year wins
wholesale; values come back in first-insertion order. -/
def dedupeReports (reports : List AnnualReport) : List AnnualReport :=
  (reports.foldl (fun m r => if r.year = 0 then m else jsMapSet m r.year r) []).map
    (fun p => p.2)

/-- The api-discovered candidate of the C1 scenario. -/
def apiCandidate : AnnualReport :=
  ⟨2022, ⟨"regnskap-api".toList,
    [⟨"Årsregnskap 2022".toList, "https://example.test/a.pdf".toList⟩]⟩⟩

/-- The weaker body-text candidate of the C1 scenario, discovered later. -/
def bodyTextCandidate : AnnualReport :=
  ⟨2022, ⟨"body-text-link".toList,
    [⟨"Årsregnskap 2022".toList, "https://example.test/b.pdf".toList⟩]⟩⟩

/-! ### Document-ref validation (part_009 lines 65-98) -/

/-- BASE_DOMAIN of part_009. -/
def BASE_DOMAIN : List Char := "https://virksomhet.brreg.no".toList

/-- isPlaceholderUrl: null, undefined, empty, hash-only, javascript: and
about: URLs, after trimming and lower-casing. -/
def isPlaceholderUrl (url : Option (List Char)) : Bool :=
  match url with
  | none => true
  | some u =>
    if u = [] then true
    else
      let normalized := (jsTrim u).map jsLowerChar
      normalized = [] || normalized = "#".toList ||
      leadsWith ("javascript:".toList) normalized ||
      leadsWith ("about:".toList) normalized

/-- normalizeDocumentUrl: reject placeholders, keep absolute http(s) URLs,
prefix protocol-relative URLs with https, and resolve everything else against
BASE_DOMAIN. -/
def normalizeDocumentUrl (rawUrl : Option (List Char)) : Option (List Char) :=
  match rawUrl with
  | none => none
  | some u =>
    if u = [] || isPlaceholderUrl (some u) then none
    else
      let trimmed := jsTrim u
      if ciLeadsWith ("http://".toList) trimmed ||
         ciLeadsWith ("https://".toList) trimmed then
        some trimmed
      else if leadsWith ("//".toList) trimmed then
        some ("https:".toList ++ trimmed)
      else if leadsWith ("/".toList) trimmed then
        some (BASE_DOMAIN ++ trimmed)
      else
        some (BASE_DOMAIN ++ "/".toList ++ trimmed.dropWhile (fun c => c = '/'))

/-- Absolute http(s) URL shape used to state the C8 invariant. -/
def isAbsoluteHttpUrl (v : List Char) : Bool :=
  ciLeadsWith ("http://".toList) v || ciLeadsWith ("https://".toList) v ||
  leadsWith ("https:".toList) v

/-! ### PDF container validation -/

/-- Buffer.indexOf of a pattern: leftmost occurrence. -/
def jsIndexOf [DecidableEq α] (s pat : List α) : Option Nat :=
  if leadsWith pat s then some 0
  else
    match s with
    | [] => none
    | _ :: t => (jsIndexOf t pat).map (fun j => j + 1)

/-- Buffer.lastIndexOf of a pattern: rightmost occurrence. -/
def jsLastIndexOf [DecidableEq α] (s pat : List α) : Option Nat :=
  match s with
  | [] => if leadsWith pat ([] : List α) then some 0 else none
  | a :: t =>
    match jsLastIndexOf t pat with
    | some j => some (j + 1)
    | none => if leadsWith pat (a :: t) then some 0 else none

/-- The byte sequence of the PDF start marker. -/
def pdfMarker : List Nat := [37, 80, 68, 70]

/-- The byte sequence of the PDF end-of-file marker. -/
def eofMarker : List Nat := [37, 37, 69, 79, 70]

/-- Marker validation of downloadAndParsePdf (src/scrape-annual-reports.ts lines
68-90; the same logic opens parsePdfAndExtractAarsresultat at
src/scrape-pdf.ts lines 234-286): locate the first start marker and the last
EOF marker, slice to six bytes past the EOF marker (Buffer.subarray clamps),
and reject with a null result unless the slice starts with the start marker
and is at least 1000 bytes; on success the slice is handed to the PDF parser. -/
def downloadAndParsePdfSpan (buf : List Nat) : Option (List Nat) :=
  match jsIndexOf buf pdfMarker with
  | none => none
  | some pdfStart =>
    match jsLastIndexOf buf eofMarker with
    | none => none
    | some eofPos =>
      let pdfData := (buf.take (eofPos + 6)).drop pdfStart
      if leadsWith pdfMarker pdfData && 1000 ≤ pdfData.length then some pdfData
      else none

/-- The span described by the specification: from the first start marker to six
bytes past the last EOF marker, with the JS convention that a missing marker
has index -1. -/
def claimedSpan (buf : List Nat) : List Nat :=
  match jsIndexOf buf pdfMarker with
  | none => []
  | some pdfStart =>
    let eofInt : Int :=
      match jsLastIndexOf buf eofMarker with
      | some e => (e : Int)
      | none => -1
    (buf.take (eofInt + 6).toNat).drop pdfStart

/-- A 1000-byte buffer whose span is the whole buffer: the start marker, 991
filler bytes, and the EOF marker ending at the final byte. -/
def demoPdfBuf : List Nat := pdfMarker ++ List.replicate 991 120 ++ eofMarker

/-! ### Temp-file lifecycle of parsePdfAndExtractAarsresultat -/

/-- Exit paths available after the temporary PDF file has been written
(src/scrape-pdf.ts lines 290-596). -/
inductive PdfExit where
  | parseError
  | ocrSuccess
  | apiJournal
  | shortText
  | extracted
  | extractionMiss
deriving Repr, DecidableEq

/-- Control-flow model of the temp-file lifecycle: which exit path runs and
whether the temporary file has been unlinked when the function returns.
Branch inputs: whether the PDF parser throws, the text-layer length, the byte
size of the extracted span, the OCR result length (none models OCR failure or
an OCR exception), whether OCR text yields a figure, whether a journal number
is found in the PDF metadata, whether the journal-number API call yields a
figure, and whether the main extraction finds any figure.  Unlink calls appear
in the source only at line 399 (OCR success path), line 548 (main extraction
path, before both the hit and the miss return) and line 590 (the catch that
rethrows into the outermost handler). -/
def parsePdfTempFileFlow (parseThrows : Bool) (textLen dataLen : Nat)
    (ocrTextLen : Option Nat) (ocrFinds journalFound apiFinds mainFinds : Bool) :
    PdfExit × Bool :=
  if parseThrows then (PdfExit.parseError, false)
  else if textLen < 50 then
    let pdfHasContent := decide (10000 < dataLen)
    let ocrHit := pdfHasContent &&
      (match ocrTextLen with
       | some n => decide (50 < n) && ocrFinds
       | none => false)
    if ocrHit then (PdfExit.ocrSuccess, true)
    else if pdfHasContent && journalFound && apiFinds then (PdfExit.apiJournal, false)
    else (PdfExit.shortText, false)
  else if mainFinds then (PdfExit.extracted, true)
  else (PdfExit.extractionMiss, true)

/-! ### Persistence upsert (src/scrape-annual-reports.ts lines 264-291) -/

/-- A row of the brreg_annual_reports table. -/
structure ReportRow where
  orgnr : List Char
  ar : Int
  data : List Char
  scrapedAt : Nat
deriving Repr, DecidableEq

/-- The primary-key predicate (organisasjonsnummer, ar) of the conflict
clause. -/
def keyMatch (orgnr : List Char) (ar : Int) (r : ReportRow) : Bool :=
  r.orgnr = orgnr && r.ar = ar

/-- upsertAnnualReport: the SQL insert with on-conflict-do-update on the
primary key (organisasjonsnummer, ar) replaces data and refreshes scraped_at
on the matching row, and appends a fresh row otherwise; now models the NOW()
timestamp of the statement. -/
def upsertAnnualReport (table : List ReportRow) (orgnr : List Char) (ar : Int)
    (data : List Char) (now : Nat) : List ReportRow :=
  if table.any (keyMatch orgnr ar) then
    table.map (fun r =>
      if keyMatch orgnr ar r then { r with data := data, scrapedAt := now }
      else r)
  else table ++ [⟨orgnr, ar, data, now⟩]

/-- Number of rows with the given primary key. -/
def keyCount (table : List ReportRow) (orgnr : List Char) (ar : Int) : Nat :=
  (table.filter (keyMatch orgnr ar)).length

/-- The first row with the given primary key. -/
def findRow (table : List ReportRow) (orgnr : List Char) (ar : Int) :
    Option ReportRow :=
  table.find? (keyMatch orgnr ar)

/-! ### Structured-API year loop (part_006 lines 37-52) -/

/-- Collection loop of fetchRegnskapApiEntries, with fetchRegnskapForYear
abstracted into an oracle: an entry found for a year is appended, and the loop
breaks once the accumulated length reaches maxResults (the check runs after
the push). -/
def fetchRegnskapApiEntriesLoop (fetch : Int → Option α) (maxResults : Nat) :
    List Int → List α → List α
  | [], acc => acc
  | y :: ys, acc =>
    match fetch y with
    | none => fetchRegnskapApiEntriesLoop fetch maxResults ys acc
    | some e =>
      if maxResults ≤ (acc ++ [e]).length then acc ++ [e]
      else fetchRegnskapApiEntriesLoop fetch maxResults ys (acc ++ [e])

/-- The scanned years: maxYear down to minYear. -/
def descYears (maxYear minYear : Int) : List Int :=
  (List.range (maxYear - minYear + 1).toNat).map (fun k => maxYear - (k : Int))

/-- fetchRegnskapApiEntries with the network abstracted into the year oracle;
the source default for maxResults is 10. -/
def fetchRegnskapApiEntries (fetch : Int → Option α) (minYear maxYear : Int)
    (maxResults : Nat) : List α :=
  fetchRegnskapApiEntriesLoop fetch maxResults (descYears maxYear minYear) []

/-! ## Helper lemmas -/

theorem jsParseInt_none_iff (s : List Char) :
    jsParseInt s = none ↔ startsNumeric s = false := by
  cases s with
  | nil => simp [jsParseInt, startsNumeric]
  | cons c rest =>
    by_cases hm : c = '-'
    · subst hm
      cases rest with
      | nil => simp [jsParseInt, startsNumeric, parseDigitsLead]
      | cons d ds =>
        by_cases hd : isDigitCh d
        · simp [jsParseInt, startsNumeric, parseDigitsLead, hd]
        · simp [jsParseInt, startsNumeric, parseDigitsLead, hd]
    · by_cases hp : c = '+'
      · subst hp
        cases rest with
        | nil => simp [jsParseInt, startsNumeric, parseDigitsLead]
        | cons d ds =>
          by_cases hd : isDigitCh d
          · simp [jsParseInt, startsNumeric, parseDigitsLead, hd]
          · simp [jsParseInt, startsNumeric, parseDigitsLead, hd]
      · by_cases hd : isDigitCh c
        · simp [jsParseInt, startsNumeric, parseDigitsLead, hm, hp, hd]
        · simp [jsParseInt, startsNumeric, parseDigitsLead, hm, hp, hd]

theorem firstSome_sat {α β : Type} {P : β → Prop} :
    ∀ (l : List α) (f : α → Option β),
      (∀ a ∈ l, ∀ b, f a = some b → P b) →
      ∀ b, firstSome l f = some b → P b := by
  intro l
  induction l with
  | nil =>
    intro f _ b h
    simp [firstSome] at h
  | cons a rest ih =>
    intro f hf b h
    simp only [firstSome] at h
    split at h
    · rename_i b0 heq
      cases h
      exact hf a (List.mem_cons_self a rest) _ heq
    · exact ih f (fun x hx b' hb' => hf x (List.mem_cons_of_mem a hx) b' hb') b h

theorem scanLoop_sat {β : Type} {P : β → Prop}
    (step : List Char → List (List Char) → Option β)
    (hstep : ∀ cur rest b, step cur rest = some b → P b) :
    ∀ (lines : List (List Char)) (b : β), scanLoop step lines = some b → P b := by
  intro lines
  induction lines with
  | nil => intro b h; simp [scanLoop] at h
  | cons cur rest ih =>
    intro b h
    simp only [scanLoop] at h
    split at h
    · rename_i r heq
      cases h
      exact hstep cur rest _ heq
    · exact ih b h

theorem scanLoopPrev_sat {β : Type} {P : β → Prop}
    (step : Option (List Char) → List Char → List (List Char) → Option β)
    (hstep : ∀ prev cur rest b, step prev cur rest = some b → P b) :
    ∀ (prev : Option (List Char)) (lines : List (List Char)) (b : β),
      scanLoopPrev step prev lines = some b → P b := by
  intro prev lines
  induction lines generalizing prev with
  | nil => intro b h; simp [scanLoopPrev] at h
  | cons cur rest ih =>
    intro b h
    simp only [scanLoopPrev] at h
    split at h
    · rename_i r heq
      cases h
      exact hstep prev cur rest _ heq
    · exact ih (some cur) b h

theorem takeWithOffsets_bounds :
    ∀ (n : Nat) (k : Int) (ls : List (List Char)) (p : Int × List Char),
      p ∈ takeWithOffsets n k ls → k ≤ p.1 ∧ p.1 < k + n := by
  intro n
  induction n with
  | zero => intro k ls p h; simp [takeWithOffsets] at h
  | succ m ih =>
    intro k ls p h
    cases ls with
    | nil => simp [takeWithOffsets] at h
    | cons l rest =>
      simp only [takeWithOffsets] at h
      rcases List.mem_cons.mp h with h1 | h2
      · subst h1
        constructor
        · exact le_refl k
        · have : (0 : Int) < (m : Int) + 1 := by positivity
          push_cast
          omega
      · have hb := ih (k + 1) rest p h2
        push_cast at hb ⊢
        omega

theorem aarsLabelStep_sound (cur : List Char) (rest : List (List Char))
    (p : Int × Int) (h : aarsLabelStep cur rest = some p) :
    (p.1 = 0 ∨ p.1 = 1) ∧ 100 < p.2.natAbs := by
  simp only [aarsLabelStep] at h
  split at h
  · split at h
    next v heq =>
      split at h
      next hv => cases h; exact ⟨Or.inl rfl, hv⟩
      next =>
        split at h
        next w heqw =>
          split at h
          next hw => cases h; exact ⟨Or.inr rfl, hw⟩
          next => cases h
        next => cases h
    next =>
      split at h
      next w heqw =>
        split at h
        next hw => cases h; exact ⟨Or.inr rfl, hw⟩
        next => cases h
      next => cases h
  · cases h

theorem aarsKeywordStep_sound (cur : List Char) (rest : List (List Char))
    (p : Int × Int) (h : aarsKeywordStep cur rest = some p) :
    p.1 = 0 ∧ 100 < p.2.natAbs := by
  simp only [aarsKeywordStep] at h
  split at h
  · split at h
    next v heq =>
      split at h
      next hv => cases h; exact ⟨rfl, hv⟩
      next => cases h
    next => cases h
  · cases h

theorem aarsLastResortStep_sound (cur : List Char) (rest : List (List Char))
    (p : Int × Int) (h : aarsLastResortStep cur rest = some p) :
    (p.1 = 0 ∨ p.1 = 1) ∧ 100 < p.2.natAbs := by
  simp only [aarsLastResortStep] at h
  split at h
  · split at h
    next v heq =>
      split at h
      next hv => cases h; exact ⟨Or.inl rfl, hv⟩
      next =>
        split at h
        next w heqw =>
          split at h
          next hw => cases h; exact ⟨Or.inr rfl, hw⟩
          next => cases h
        next => cases h
    next =>
      split at h
      next w heqw =>
        split at h
        next hw => cases h; exact ⟨Or.inr rfl, hw⟩
        next => cases h
      next => cases h
  · cases h

theorem salgsCandidateLines_offsets (prev : Option (List Char)) (cur : List Char)
    (rest : List (List Char)) (p : Int × List Char)
    (h : p ∈ salgsCandidateLines prev cur rest) : -1 ≤ p.1 ∧ p.1 ≤ 4 := by
  cases prev with
  | none =>
    simp only [salgsCandidateLines, List.nil_append, List.cons_append,
      List.mem_cons] at h
    rcases h with h1 | h2
    · subst h1; exact ⟨by norm_num, by norm_num⟩
    · have := takeWithOffsets_bounds 4 1 rest p h2
      omega
  | some pl =>
    simp only [salgsCandidateLines, List.cons_append, List.nil_append,
      List.mem_cons] at h
    rcases h with h0 | h1 | h2
    · subst h0; exact ⟨by norm_num, by norm_num⟩
    · subst h1; exact ⟨by norm_num, by norm_num⟩
    · have := takeWithOffsets_bounds 4 1 rest p h2
      omega

theorem salgsStep_sound (prev : Option (List Char)) (cur : List Char)
    (rest : List (List Char)) (p : Int × Int)
    (h : salgsStep prev cur rest = some p) :
    (-1 ≤ p.1 ∧ p.1 ≤ 4) ∧ 1000 < p.2 := by
  simp only [salgsStep] at h
  split at h
  · refine @firstSome_sat (Int × List Char) (Int × Int)
      (fun r => (-1 ≤ r.1 ∧ r.1 ≤ 4) ∧ 1000 < r.2)
      (salgsCandidateLines prev cur rest) _ ?_ p h
    intro a ha b hb
    split at hb
    next v heq =>
      split at hb
      next hv =>
        cases hb
        exact ⟨salgsCandidateLines_offsets prev cur rest a ha, hv⟩
      next => cases hb
    next => cases hb
  · cases h

theorem sumStep_sound (cur : List Char) (rest : List (List Char))
    (p : Int × Int) (h : sumStep cur rest = some p) :
    (0 ≤ p.1 ∧ p.1 ≤ 4) ∧ 1000 < p.2 := by
  simp only [sumStep] at h
  split at h
  · split at h
    next r heq =>
      cases h
      split at heq
      next v heqv =>
        split at heq
        next hv => cases heq; exact ⟨⟨le_refl 0, by norm_num⟩, hv⟩
        next => cases heq
      next => cases heq
    next =>
      refine @firstSome_sat (Int × List Char) (Int × Int)
        (fun r => (0 ≤ r.1 ∧ r.1 ≤ 4) ∧ 1000 < r.2)
        (takeWithOffsets 4 1 rest) _ ?_ p h
      intro a ha b hb
      split at hb
      next v heqv =>
        split at hb
        next hv =>
          cases hb
          have := takeWithOffsets_bounds 4 1 rest a ha
          exact ⟨⟨by omega, by omega⟩, hv⟩
        next => cases hb
      next => cases hb
  · cases h

theorem scanLoopPrev2_sat {β : Type} {P : β → Prop}
    (step : Option (List Char) → Option (List Char) → List Char →
      List (List Char) → Option β)
    (hstep : ∀ prev2 prev1 cur rest b, step prev2 prev1 cur rest = some b → P b) :
    ∀ (prev2 prev1 : Option (List Char)) (lines : List (List Char)) (b : β),
      scanLoopPrev2 step prev2 prev1 lines = some b → P b := by
  intro prev2 prev1 lines
  induction lines generalizing prev2 prev1 with
  | nil => intro b h; simp [scanLoopPrev2] at h
  | cons cur rest ih =>
    intro b h
    simp only [scanLoopPrev2] at h
    split at h
    · rename_i r heq
      cases h
      exact hstep prev2 prev1 cur rest _ heq
    · exact ih prev1 (some cur) b h

theorem sumLastResortCandidates_offsets (prev2 prev1 : Option (List Char))
    (cur : List Char) (rest : List (List Char)) (p : Int × List Char)
    (h : p ∈ sumLastResortCandidates prev2 prev1 cur rest) :
    -2 ≤ p.1 ∧ p.1 ≤ 2 := by
  cases prev2 with
  | none =>
    cases prev1 with
    | none =>
      simp only [sumLastResortCandidates, List.nil_append, List.cons_append,
        List.mem_cons] at h
      rcases h with h0 | h2
      · subst h0; exact ⟨by norm_num, by norm_num⟩
      · have := takeWithOffsets_bounds 2 1 rest p h2
        omega
    | some p1 =>
      simp only [sumLastResortCandidates, List.nil_append, List.cons_append,
        List.mem_cons] at h
      rcases h with h1 | h0 | h2
      · subst h1; exact ⟨by norm_num, by norm_num⟩
      · subst h0; exact ⟨by norm_num, by norm_num⟩
      · have := takeWithOffsets_bounds 2 1 rest p h2
        omega
  | some q2 =>
    cases prev1 with
    | none =>
      simp only [sumLastResortCandidates, List.nil_append, List.cons_append,
        List.mem_cons] at h
      rcases h with h1 | h0 | h2
      · subst h1; exact ⟨by norm_num, by norm_num⟩
      · subst h0; exact ⟨by norm_num, by norm_num⟩
      · have := takeWithOffsets_bounds 2 1 rest p h2
        omega
    | some q1 =>
      simp only [sumLastResortCandidates, List.nil_append, List.cons_append,
        List.mem_cons] at h
      rcases h with h2 | h1 | h0 | h3
      · subst h2; exact ⟨by norm_num, by norm_num⟩
      · subst h1; exact ⟨by norm_num, by norm_num⟩
      · subst h0; exact ⟨by norm_num, by norm_num⟩
      · have := takeWithOffsets_bounds 2 1 rest p h3
        omega

theorem sumLastResortStep_sound (prev2 prev1 : Option (List Char))
    (cur : List Char) (rest : List (List Char)) (p : Int × Int)
    (h : sumLastResortStep prev2 prev1 cur rest = some p) :
    (-2 ≤ p.1 ∧ p.1 ≤ 2) ∧ 100000 < p.2 := by
  simp only [sumLastResortStep] at h
  split at h
  · refine @firstSome_sat (Int × List Char) (Int × Int)
      (fun r => (-2 ≤ r.1 ∧ r.1 ≤ 2) ∧ 100000 < r.2)
      (sumLastResortCandidates prev2 prev1 cur rest) _ ?_ p h
    intro a ha b hb
    split at hb
    next v heq =>
      split at hb
      next hv =>
        cases hb
        exact ⟨sumLastResortCandidates_offsets prev2 prev1 cur rest a ha, hv⟩
      next => cases hb
    next => cases hb
  · cases h

theorem leadsWith_refl {α : Type} [DecidableEq α] :
    ∀ p : List α, leadsWith p p = true := by
  intro p
  induction p with
  | nil => simp [leadsWith]
  | cons a t ih => simp [leadsWith, ih]

theorem leadsWith_append {α : Type} [DecidableEq α] :
    ∀ (p l r : List α), leadsWith p l = true → leadsWith p (l ++ r) = true := by
  intro p
  induction p with
  | nil => intro l r _; simp [leadsWith]
  | cons a t ih =>
    intro l r h
    cases l with
    | nil => simp [leadsWith] at h
    | cons c cs =>
      simp only [leadsWith, List.cons_append] at h ⊢
      split at h
      next heq => rw [if_pos heq]; exact ih cs r h
      next heq => cases h

theorem leadsWith_take {α : Type} [DecidableEq α] :
    ∀ (pat l : List α) (k : Nat), leadsWith pat l = true → pat.length ≤ k →
      leadsWith pat (l.take k) = true := by
  intro pat
  induction pat with
  | nil => intro l k _ _; simp [leadsWith]
  | cons p ps ih =>
    intro l k h hk
    cases l with
    | nil => simp [leadsWith] at h
    | cons c cs =>
      cases k with
      | zero => simp at hk
      | succ m =>
        simp only [leadsWith, List.take] at h ⊢
        split at h
        next heq =>
          rw [if_pos heq]
          exact ih cs m h (by simpa using Nat.succ_le_succ_iff.mp hk)
        next heq => cases h

theorem jsIndexOf_leadsWith {α : Type} [DecidableEq α] :
    ∀ (s pat : List α) (i : Nat), jsIndexOf s pat = some i →
      leadsWith pat (s.drop i) = true := by
  intro s
  induction s with
  | nil =>
    intro pat i h
    simp only [jsIndexOf] at h
    split at h
    next hp => cases h; simpa using hp
    next => simp at h
  | cons a t ih =>
    intro pat i h
    simp only [jsIndexOf] at h
    split at h
    next hp => cases h; simpa using hp
    next hp =>
      rcases Option.map_eq_some'.mp h with ⟨j, hj, rfl⟩
      simpa using ih pat j hj

/-! ## Claim C1: deduplication of report candidates -/

/-- C1 counterexample: deduplicating an api candidate followed by a body-text
candidate for the same year keeps the body-text candidate wholesale — the
stronger api source tag is lost and the document of the api candidate does not
appear in the surviving document list, contrary to the claimed merge. -/
theorem dedupe_drops_earlier_candidate :
    dedupeReports [apiCandidate, bodyTextCandidate] = [bodyTextCandidate] ∧
    bodyTextCandidate.data.source ≠ apiCandidate.data.source ∧
    (⟨"Årsregnskap 2022".toList, "https://example.test/a.pdf".toList⟩ :
      AnnualReportDocument) ∉ bodyTextCandidate.data.documents := by
  exact ⟨by decide, by decide, by decide⟩

/-- C1 (amended): dedupeReports is last-wins per year: for two candidates with
the same non-falsy year, the deduplicated result is exactly the later
candidate — its source tag and document list entirely replace those of the
earlier candidate, leaving one candidate for that year. -/
theorem dedupe_last_candidate_wins (r1 r2 : AnnualReport)
    (hy : r1.year = r2.year) (h0 : r2.year ≠ 0) :
    dedupeReports [r1, r2] = [r2] := by
  simp [dedupeReports, jsMapSet, hy, h0]

/-- Witness for the amended C1 theorem at the concrete scenario candidates. -/
theorem dedupe_last_candidate_wins_witness :
    dedupeReports [apiCandidate, bodyTextCandidate] = [bodyTextCandidate] :=
  dedupe_last_candidate_wins apiCandidate bodyTextCandidate (by decide) (by decide)

/-! ## Claim C2: plausibility thresholds of label-anchored matching -/

/-- C2 counterexample: the whole-text pattern pass of the net-result extractor
returns the matched numeral 5 although 5 does not exceed the threshold 100, so
a matched numeral at or below the threshold is returned by that pass. -/
theorem pattern_pass_returns_small_value :
    runPatternPass aarsresultatPatterns ("Årsresultat: 5".toList) = some 5 ∧
    extractAarsresultatFromPdfText ("Årsresultat: 5".toList) = some 5 ∧
    (5 : Int).natAbs ≤ 100 := by
  exact ⟨by decide, by decide, by decide⟩

/-- C2 (amended): the minimum-plausibility thresholds are enforced only by the
line-scan fallbacks — magnitude above 100 for each net-result scan, value
above 1000 for the revenue and total-income scans — while the whole-text
pattern pass applies no threshold and returns arbitrarily small matched
numerals, for example 5. -/
theorem figure_thresholds_only_in_fallbacks :
    (∀ lines p, aarsresultatLabelScan lines = some p → 100 < p.2.natAbs) ∧
    (∀ lines p, aarsresultatKeywordScan lines = some p → 100 < p.2.natAbs) ∧
    (∀ lines p, aarsresultatLastResortScan lines = some p → 100 < p.2.natAbs) ∧
    (∀ prev lines p, salgsinntektLineScan prev lines = some p → 1000 < p.2) ∧
    (∀ lines p, sumInntekterLineScan lines = some p → 1000 < p.2) ∧
    extractAarsresultatFromPdfText ("Årsresultat: 5".toList) = some 5 := by
  refine ⟨?_, ?_, ?_, ?_, ?_, by decide⟩
  · intro lines p h
    exact (@scanLoop_sat _ (fun q => (q.1 = 0 ∨ q.1 = 1) ∧ 100 < q.2.natAbs)
      aarsLabelStep aarsLabelStep_sound lines p h).2
  · intro lines p h
    exact (@scanLoop_sat _ (fun q => q.1 = 0 ∧ 100 < q.2.natAbs)
      aarsKeywordStep aarsKeywordStep_sound lines p h).2
  · intro lines p h
    exact (@scanLoop_sat _ (fun q => (q.1 = 0 ∨ q.1 = 1) ∧ 100 < q.2.natAbs)
      aarsLastResortStep aarsLastResortStep_sound lines p h).2
  · intro prev lines p h
    exact (@scanLoopPrev_sat _ (fun q => (-1 ≤ q.1 ∧ q.1 ≤ 4) ∧ 1000 < q.2)
      salgsStep salgsStep_sound prev lines p h).2
  · intro lines p h
    exact (@scanLoop_sat _ (fun q => (0 ≤ q.1 ∧ q.1 ≤ 4) ∧ 1000 < q.2)
      sumStep sumStep_sound lines p h).2

/-- Witness for the amended C2 theorem: a concrete fallback hit obeys the
threshold. -/
theorem figure_thresholds_witness :
    aarsresultatLabelScan (splitLines ("Årsresultat*\nx 200 000".toList)) =
      some (1, 200000) ∧
    100 < ((1, (200000 : Int)) : Int × Int).2.natAbs := by
  have h : aarsresultatLabelScan (splitLines ("Årsresultat*\nx 200 000".toList)) =
      some (1, 200000) := by decide
  exact ⟨h, figure_thresholds_only_in_fallbacks.1 _ _ h⟩

/-! ## Claim C3: line-scan windows -/

/-- C3 counterexample: the salgsinntekt line scan returns the numeral 2000000
from the line immediately before the label line (offset -1) and the full
extractor returns that value; likewise the last-resort sum-inntekter scan
(the cited lines 926-946) returns 7000000 from two lines before its trigger
line (offset -2) while the main sum scan finds nothing there.  The claim says
lines strictly before the label line are never consulted. -/
theorem salgs_scan_reads_previous_line :
    salgsinntektLineScan none (splitLines ("2 000 000\nsalgsinntekt".toList)) =
      some (-1, 2000000) ∧
    extractSalgsinntektFromPdfText ("2 000 000\nsalgsinntekt".toList) =
      some 2000000 ∧
    sumInntekterLineScan (splitLines ("7 000 000\nx\nSum inntekter".toList)) =
      none ∧
    sumInntekterLastResortScan (splitLines ("7 000 000\nx\nSum inntekter".toList)) =
      some (-2, 7000000) := by
  exact ⟨by decide, by decide, by decide, by decide⟩

/-- C3 (amended): the net-result line scans only examine the label line and the
line after it, and the main total-income scan only the label line and at most
the four following lines; but the sales-revenue scan window starts one line
before the label line (offsets -1 through 4) and the last-resort total-income
scan window starts two lines before its trigger line (offsets -2 through 2),
so both of these can return a numeral taken from a line strictly before the
label line. -/
theorem line_scan_window_offsets :
    (∀ lines p, aarsresultatLabelScan lines = some p → p.1 = 0 ∨ p.1 = 1) ∧
    (∀ lines p, aarsresultatKeywordScan lines = some p → p.1 = 0) ∧
    (∀ lines p, aarsresultatLastResortScan lines = some p → p.1 = 0 ∨ p.1 = 1) ∧
    (∀ lines p, sumInntekterLineScan lines = some p → 0 ≤ p.1 ∧ p.1 ≤ 4) ∧
    (∀ prev lines p, salgsinntektLineScan prev lines = some p →
      -1 ≤ p.1 ∧ p.1 ≤ 4) ∧
    (∀ lines p, sumInntekterLastResortScan lines = some p →
      -2 ≤ p.1 ∧ p.1 ≤ 2) := by
  refine ⟨?_, ?_, ?_, ?_, ?_, ?_⟩
  · intro lines p h
    exact (@scanLoop_sat _ (fun q => (q.1 = 0 ∨ q.1 = 1) ∧ 100 < q.2.natAbs)
      aarsLabelStep aarsLabelStep_sound lines p h).1
  · intro lines p h
    exact (@scanLoop_sat _ (fun q => q.1 = 0 ∧ 100 < q.2.natAbs)
      aarsKeywordStep aarsKeywordStep_sound lines p h).1
  · intro lines p h
    exact (@scanLoop_sat _ (fun q => (q.1 = 0 ∨ q.1 = 1) ∧ 100 < q.2.natAbs)
      aarsLastResortStep aarsLastResortStep_sound lines p h).1
  · intro lines p h
    exact (@scanLoop_sat _ (fun q => (0 ≤ q.1 ∧ q.1 ≤ 4) ∧ 1000 < q.2)
      sumStep sumStep_sound lines p h).1
  · intro prev lines p h
    exact (@scanLoopPrev_sat _ (fun q => (-1 ≤ q.1 ∧ q.1 ≤ 4) ∧ 1000 < q.2)
      salgsStep salgsStep_sound prev lines p h).1
  · intro lines p h
    exact (@scanLoopPrev2_sat _ (fun q => (-2 ≤ q.1 ∧ q.1 ≤ 2) ∧ 100000 < q.2)
      sumLastResortStep sumLastResortStep_sound none none lines p h).1

/-- Witness for the amended C3 theorem at concrete hits of the two scans that
can reach earlier lines. -/
theorem line_scan_window_offsets_witness :
    salgsinntektLineScan none (splitLines ("2 000 000\nsalgsinntekt".toList)) =
      some (-1, 2000000) ∧
    (-1 ≤ ((-1, (2000000 : Int)) : Int × Int).1 ∧
      ((-1, (2000000 : Int)) : Int × Int).1 ≤ 4) ∧
    sumInntekterLastResortScan (splitLines ("7 000 000\nx\nSum inntekter".toList)) =
      some (-2, 7000000) ∧
    (-2 ≤ ((-2, (7000000 : Int)) : Int × Int).1 ∧
      ((-2, (7000000 : Int)) : Int × Int).1 ≤ 2) := by
  have h1 : salgsinntektLineScan none
      (splitLines ("2 000 000\nsalgsinntekt".toList)) = some (-1, 2000000) := by
    decide
  have h2 : sumInntekterLastResortScan
      (splitLines ("7 000 000\nx\nSum inntekter".toList)) = some (-2, 7000000) := by
    decide
  exact ⟨h1, line_scan_window_offsets.2.2.2.2.1 none _ _ h1, h2,
    line_scan_window_offsets.2.2.2.2.2 _ _ h2⟩

/-! ## Claim C4: parenthesized numerals -/

/-- C4 counterexample: on the example text given by the specification the
extractor returns the
positive value 348197, not -348197, and handing the parenthesized substring
directly to the cleaning-plus-parseInt step yields absence, because the
parentheses are neither stripped nor interpreted as negation anywhere. -/
theorem paren_parse_counterexample :
    extractAarsresultatFromPdfText ("Årsresultat (348 197)".toList) = some 348197 ∧
    extractAarsresultatFromPdfText ("Årsresultat (348 197)".toList) ≠
      some (-348197) ∧
    parseNumericText ("(348 197)") = none := by
  exact ⟨by decide, by decide, by decide⟩

/-- C4 (amended): the numeric cleaning step never produces a negative value
from a minus-sign-free substring — parenthesized numerals are matched by a
dedicated pattern whose capture excludes the parentheses, so they come out
positive (348197 for the example), and direct parsing of a parenthesized
substring yields absence. -/
theorem paren_numerals_not_negated :
    (∀ (s : List Char), '-' ∉ s → ∀ v, jsParseInt (cleanNumeral s) = some v → 0 ≤ v) ∧
    extractAarsresultatFromPdfText ("Årsresultat (348 197)".toList) = some 348197 ∧
    parseNumericText ("(348 197)") = none := by
  refine ⟨?_, by decide, by decide⟩
  intro s hs v h
  have hmem : '-' ∉ cleanNumeral s := fun hc => hs (List.mem_of_mem_filter hc)
  cases hcl : cleanNumeral s with
  | nil => rw [hcl] at h; simp [jsParseInt] at h
  | cons c cs =>
    rw [hcl] at h hmem
    have hcne : ¬ c = '-' := fun he => hmem (he ▸ List.mem_cons_self c cs)
    simp only [jsParseInt, if_neg hcne] at h
    by_cases hp : c = '+'
    · rw [if_pos hp] at h
      rcases Option.map_eq_some'.mp h with ⟨n, _, hv⟩
      rw [← hv]
      exact Int.ofNat_nonneg n
    · rw [if_neg hp] at h
      rcases Option.map_eq_some'.mp h with ⟨n, _, hv⟩
      rw [← hv]
      exact Int.ofNat_nonneg n

/-- Witness for the amended C4 theorem at a concrete separator-grouped value. -/
theorem paren_numerals_not_negated_witness :
    jsParseInt (cleanNumeral ("348 197".toList)) = some 348197 ∧
    (0 : Int) ≤ 348197 := by
  have h : jsParseInt (cleanNumeral ("348 197".toList)) = some 348197 := by decide
  exact ⟨h, paren_numerals_not_negated.1 ("348 197".toList) (by decide) 348197 h⟩

/-! ## Claim C5: totality of the numeric parser -/

/-- C5 counterexample: a sixteen-digit run parses to its value instead of being
rejected, so the claimed rejection of runs longer than fifteen digits does not
exist in the code. -/
theorem long_digit_run_not_rejected :
    parseNumericText ("1234567890123456") = some 1234567890123456 := by decide

/-- C5 (amended): the parser is total — every input yields an integer or an
explicit absence — and it yields absence exactly when the run left after
stripping separators does not begin with an optionally signed digit (in
particular for the empty string and for letters-only input); runs longer than
fifteen digits are not rejected. -/
theorem numeric_parser_total_no_length_cap :
    (∀ s : String, parseNumericText s = none ↔
      startsNumeric (cleanNumeral s.toList) = false) ∧
    parseNumericText ("") = none ∧
    parseNumericText ("abc") = none ∧
    parseNumericText ("348 197") = some 348197 ∧
    parseNumericText ("1.234.567") = some 1234567 := by
  refine ⟨fun s => ?_, by decide, by decide, by decide, by decide⟩
  exact jsParseInt_none_iff (cleanNumeral s.toList)

/-- Witness for the amended C5 theorem at the empty string. -/
theorem numeric_parser_total_witness : parseNumericText ("") = none :=
  (numeric_parser_total_no_length_cap.1 "").mpr (by decide)

/-! ## Claim C6: PDF container validation -/

/-- C6: the marker validation fails (null figures, no exception) exactly when
the PDF start marker is absent or the span from the first start marker to six
bytes past the last EOF marker is shorter than 1000 bytes; otherwise it hands
exactly that span to the parser.  The startsWith re-check of the source is
subsumed because a span of length at least 1000 cut at the start marker always
begins with it, and a missing EOF marker always leaves a span shorter than
1000 bytes. -/
theorem pdf_validation_exactly (buf : List Nat) :
    (downloadAndParsePdfSpan buf = none ↔
      (jsIndexOf buf pdfMarker = none ∨ (claimedSpan buf).length < 1000)) ∧
    (∀ sp, downloadAndParsePdfSpan buf = some sp → sp = claimedSpan buf) := by
  cases hidx : jsIndexOf buf pdfMarker with
  | none =>
    refine ⟨?_, ?_⟩
    · simp [downloadAndParsePdfSpan, hidx]
    · intro sp h
      simp [downloadAndParsePdfSpan, hidx] at h
  | some st =>
    have hlw : leadsWith pdfMarker (buf.drop st) = true :=
      jsIndexOf_leadsWith buf pdfMarker st hidx
    cases heof : jsLastIndexOf buf eofMarker with
    | none =>
      have hclaim : (claimedSpan buf).length < 1000 := by
        simp only [claimedSpan, hidx, heof]
        have h1 : ((-1 : Int) + 6).toNat = 5 := by decide
        rw [h1]
        have h2 := List.length_drop st (buf.take 5)
        have h3 := List.length_take 5 buf
        omega
      refine ⟨?_, ?_⟩
      · constructor
        · intro _
          exact Or.inr hclaim
        · intro _
          simp [downloadAndParsePdfSpan, hidx, heof]
      · intro sp h
        simp [downloadAndParsePdfSpan, hidx, heof] at h
    | some e =>
      have hspan : claimedSpan buf = (buf.take (e + 6)).drop st := by
        simp only [claimedSpan, hidx, heof]
        have h1 : ((e : Int) + 6).toNat = e + 6 := by omega
        rw [h1]
      have hcheck : 1000 ≤ ((buf.take (e + 6)).drop st).length →
          leadsWith pdfMarker ((buf.take (e + 6)).drop st) = true := by
        intro hlen
        rw [List.drop_take] at hlen ⊢
        refine leadsWith_take pdfMarker (buf.drop st) (e + 6 - st) hlw ?_
        have h2 := List.length_take (e + 6 - st) (buf.drop st)
        have h3 : pdfMarker.length = 4 := by decide
        omega
      refine ⟨⟨?_, ?_⟩, ?_⟩
      · intro h
        simp only [downloadAndParsePdfSpan, hidx, heof] at h
        right
        rw [hspan]
        by_contra hlen
        push_neg at hlen
        have hcond : (leadsWith pdfMarker ((buf.take (e + 6)).drop st) &&
            decide (1000 ≤ ((buf.take (e + 6)).drop st).length)) = true := by
          rw [hcheck hlen, decide_eq_true hlen]
          rfl
        rw [if_pos hcond] at h
        cases h
      · intro hor
        rcases hor with h | h
        · simp at h
        · rw [hspan] at h
          have hno : ¬ (1000 ≤ ((buf.take (e + 6)).drop st).length) := by omega
          have hcond : (leadsWith pdfMarker ((buf.take (e + 6)).drop st) &&
              decide (1000 ≤ ((buf.take (e + 6)).drop st).length)) = false := by
            rw [decide_eq_false hno]
            exact Bool.and_false _
          simp only [downloadAndParsePdfSpan, hidx, heof, hcond]
          simp
      · intro sp h
        simp only [downloadAndParsePdfSpan, hidx, heof] at h
        rw [hspan]
        split at h
        · cases h
          rfl
        · cases h

set_option maxRecDepth 200000 in
/-- Witness for the C6 theorem: a concrete accepted buffer is passed through
as exactly the claimed span. -/
theorem pdf_validation_exactly_witness :
    downloadAndParsePdfSpan demoPdfBuf = some demoPdfBuf ∧
    demoPdfBuf = claimedSpan demoPdfBuf := by
  have h : downloadAndParsePdfSpan demoPdfBuf = some demoPdfBuf := by decide
  exact ⟨h, (pdf_validation_exactly demoPdfBuf).2 demoPdfBuf h⟩

/-! ## Claim C7: temp-file deletion on every exit path -/

/-- C7: evaluation of the temp-file lifecycle model on each exit path.  The
claim that the temporary PDF file is deleted on every exit path fails: the
early return inside the PDF-parse catch (lines 299-306), the
journal-number-api return (around line 502) and the short-text return (around
line 534) all run after the file was written at line 290 and perform no
unlink; only the OCR-success, extraction and exception paths delete it. -/
theorem temp_file_not_deleted_on_all_paths :
    parsePdfTempFileFlow true 0 0 none false false false false =
      (PdfExit.parseError, false) ∧
    parsePdfTempFileFlow false 0 20000 none false true true false =
      (PdfExit.apiJournal, false) ∧
    parsePdfTempFileFlow false 0 0 none false false false false =
      (PdfExit.shortText, false) ∧
    parsePdfTempFileFlow false 0 20000 (some 900) true false false false =
      (PdfExit.ocrSuccess, true) ∧
    parsePdfTempFileFlow false 100 20000 none false false false true =
      (PdfExit.extracted, true) ∧
    parsePdfTempFileFlow false 100 20000 none false false false false =
      (PdfExit.extractionMiss, true) := by
  exact ⟨by decide, by decide, by decide, by decide, by decide, by decide⟩

/-! ## Claim C8: document-ref validation and URL normalization -/

/-- C8: the validator rejects every placeholder href (none, empty, hash-only,
javascript: and about: schemes), resolves a relative href against the base
origin, and every accepted URL is absolute. -/
theorem url_normalization_spec :
    normalizeDocumentUrl none = none ∧
    normalizeDocumentUrl (some ("".toList)) = none ∧
    normalizeDocumentUrl (some ("#".toList)) = none ∧
    normalizeDocumentUrl (some ("javascript:void(0)".toList)) = none ∧
    normalizeDocumentUrl (some ("about:blank".toList)) = none ∧
    normalizeDocumentUrl (some ("/dok/abc.pdf".toList)) =
      some (BASE_DOMAIN ++ "/dok/abc.pdf".toList) ∧
    (∀ u, isPlaceholderUrl (some u) = true → normalizeDocumentUrl (some u) = none) ∧
    (∀ u v, normalizeDocumentUrl (some u) = some v → isAbsoluteHttpUrl v = true) := by
  have hbase : leadsWith ("https:".toList) BASE_DOMAIN = true := by decide
  refine ⟨by decide, by decide, by decide, by decide, by decide, by decide, ?_, ?_⟩
  · intro u hplace
    simp [normalizeDocumentUrl, hplace]
  · intro u v h
    simp only [normalizeDocumentUrl] at h
    split at h
    · cases h
    · split at h
      next hhttp =>
        cases h
        simp only [isAbsoluteHttpUrl, Bool.or_eq_true] at hhttp ⊢
        rcases hhttp with h1 | h2
        · exact Or.inl (Or.inl h1)
        · exact Or.inl (Or.inr h2)
      next =>
        split at h
        next hslash2 =>
          cases h
          simp only [isAbsoluteHttpUrl, Bool.or_eq_true]
          have hc : leadsWith ("https:".toList) ("https:".toList ++ jsTrim u) = true :=
            leadsWith_append _ _ _ (leadsWith_refl _)
          exact Or.inr hc
        next =>
          split at h
          next hslash =>
            cases h
            simp only [isAbsoluteHttpUrl, Bool.or_eq_true]
            have hc : leadsWith ("https:".toList) (BASE_DOMAIN ++ jsTrim u) = true :=
              leadsWith_append _ _ _ hbase
            exact Or.inr hc
          next =>
            cases h
            simp only [isAbsoluteHttpUrl, Bool.or_eq_true]
            have hc : leadsWith ("https:".toList)
                (BASE_DOMAIN ++ "/".toList ++
                  (jsTrim u).dropWhile (fun c => c = '/')) = true := by
              rw [List.append_assoc]
              exact leadsWith_append _ _ _ hbase
            exact Or.inr hc

/-- Witness for the C8 theorem: the resolved relative href is absolute. -/
theorem url_normalization_spec_witness :
    normalizeDocumentUrl (some ("/dok/abc.pdf".toList)) =
      some (BASE_DOMAIN ++ "/dok/abc.pdf".toList) ∧
    isAbsoluteHttpUrl (BASE_DOMAIN ++ "/dok/abc.pdf".toList) = true := by
  have h : normalizeDocumentUrl (some ("/dok/abc.pdf".toList)) =
      some (BASE_DOMAIN ++ "/dok/abc.pdf".toList) := by decide
  exact ⟨h, url_normalization_spec.2.2.2.2.2.2.2 _ _ h⟩

/-! ## Claim C9: idempotent persistence upsert -/

theorem keyMatch_iff (orgnr : List Char) (ar : Int) (r : ReportRow) :
    keyMatch orgnr ar r = true ↔ r.orgnr = orgnr ∧ r.ar = ar := by
  simp [keyMatch]

theorem keyMatch_new (orgnr : List Char) (ar : Int) (d : List Char) (t : Nat) :
    keyMatch orgnr ar ⟨orgnr, ar, d, t⟩ = true := by
  simp [keyMatch]

theorem keyMatch_update (orgnr : List Char) (ar : Int) (d : List Char) (t : Nat)
    (r : ReportRow) (h : keyMatch orgnr ar r = true) :
    ({ r with data := d, scrapedAt := t } : ReportRow) = ⟨orgnr, ar, d, t⟩ := by
  rcases (keyMatch_iff orgnr ar r).mp h with ⟨h1, h2⟩
  cases r
  simp_all

theorem upsert_update_case (orgnr : List Char) (ar : Int) (d : List Char) (t : Nat) :
    ∀ table : List ReportRow,
      table.any (keyMatch orgnr ar) = true →
      keyCount table orgnr ar ≤ 1 →
      keyCount (table.map (fun r =>
        if keyMatch orgnr ar r then { r with data := d, scrapedAt := t } else r))
          orgnr ar = 1 ∧
      List.find? (keyMatch orgnr ar) (table.map (fun r =>
        if keyMatch orgnr ar r then { r with data := d, scrapedAt := t } else r)) =
          some ⟨orgnr, ar, d, t⟩ ∧
      (table.map (fun r =>
        if keyMatch orgnr ar r then { r with data := d, scrapedAt := t } else r)).filter
          (fun r => !(keyMatch orgnr ar r)) =
        table.filter (fun r => !(keyMatch orgnr ar r)) := by
  intro table
  induction table with
  | nil => intro hany _; simp at hany
  | cons r rest ih =>
    intro hany hcnt
    simp only [List.map_cons]
    by_cases hk : keyMatch orgnr ar r = true
    · rw [if_pos hk, keyMatch_update orgnr ar d t r hk]
      have hcnt0 : keyCount rest orgnr ar = 0 := by
        simp only [keyCount, List.filter_cons, hk, if_true, List.length_cons] at hcnt
        simp only [keyCount]
        omega
      have hfil : rest.filter (keyMatch orgnr ar) = [] :=
        List.length_eq_zero.mp hcnt0
      have hrest : ∀ x ∈ rest, ¬ keyMatch orgnr ar x = true :=
        List.filter_eq_nil_iff.mp hfil
      have hmap : rest.map (fun r =>
          if keyMatch orgnr ar r then { r with data := d, scrapedAt := t } else r) =
          rest := by
        have h1 : rest.map (fun r =>
            if keyMatch orgnr ar r then { r with data := d, scrapedAt := t } else r) =
            rest.map id :=
          List.map_congr_left (fun x hx => by rw [if_neg (hrest x hx)]; rfl)
        rw [h1, List.map_id]
      rw [hmap]
      refine ⟨?_, ?_, ?_⟩
      · simp [keyCount, List.filter_cons, keyMatch_new, hfil]
      · simp [List.find?_cons, keyMatch_new]
      · simp [List.filter_cons, keyMatch_new, hk]
    · rw [if_neg hk]
      have hkf : keyMatch orgnr ar r = false := by
        cases hx : keyMatch orgnr ar r
        · rfl
        · exact absurd hx hk
      have hany' : rest.any (keyMatch orgnr ar) = true := by
        simpa [List.any_cons, hkf] using hany
      have hcnt' : keyCount rest orgnr ar ≤ 1 := by
        simpa only [keyCount, List.filter_cons, hk, if_false] using hcnt
      obtain ⟨ih1, ih2, ih3⟩ := ih hany' hcnt'
      refine ⟨?_, ?_, ?_⟩
      · simpa [keyCount, List.filter_cons, hk] using ih1
      · simpa [List.find?_cons, hk] using ih2
      · simp only [List.filter_cons, hk]
        simp only [Bool.not_false, if_true]
        rw [ih3]

theorem upsert_once (table : List ReportRow) (orgnr : List Char) (ar : Int)
    (d : List Char) (t : Nat) (hpk : keyCount table orgnr ar ≤ 1) :
    keyCount (upsertAnnualReport table orgnr ar d t) orgnr ar = 1 ∧
    findRow (upsertAnnualReport table orgnr ar d t) orgnr ar =
      some ⟨orgnr, ar, d, t⟩ ∧
    (upsertAnnualReport table orgnr ar d t).filter
        (fun r => !(keyMatch orgnr ar r)) =
      table.filter (fun r => !(keyMatch orgnr ar r)) := by
  by_cases hany : table.any (keyMatch orgnr ar) = true
  · simp only [upsertAnnualReport, hany, if_true]
    exact upsert_update_case orgnr ar d t table hany hpk
  · have hb : table.any (keyMatch orgnr ar) = false := by
      cases hx : table.any (keyMatch orgnr ar)
      · rfl
      · exact absurd hx hany
    have hnone : ∀ x ∈ table, ¬ keyMatch orgnr ar x = true :=
      List.any_eq_false.mp hb
    have hfilter : table.filter (keyMatch orgnr ar) = [] :=
      List.filter_eq_nil_iff.mpr hnone
    simp only [upsertAnnualReport, hb, Bool.false_eq_true, if_false]
    refine ⟨?_, ?_, ?_⟩
    · simp [keyCount, List.filter_append, hfilter, keyMatch_new]
    · simp [findRow, List.find?_append, List.find?_eq_none.mpr hnone,
        List.find?_cons, keyMatch_new]
    · simp [List.filter_append, keyMatch_new]

/-- C9: performing the upsert twice for a key, under the primary-key invariant
(at most one existing row for the key): exactly one row for the key remains;
its payload is the last written payload; scrapedAt is refreshed by each upsert
(t1 after the first, t2 after the second); and the rows with any other key are
exactly those of the original table, unmodified. -/
theorem upsert_twice_idempotent (table : List ReportRow) (orgnr : List Char)
    (ar : Int) (d1 d2 : List Char) (t1 t2 : Nat)
    (hpk : keyCount table orgnr ar ≤ 1) :
    keyCount (upsertAnnualReport (upsertAnnualReport table orgnr ar d1 t1)
      orgnr ar d2 t2) orgnr ar = 1 ∧
    findRow (upsertAnnualReport (upsertAnnualReport table orgnr ar d1 t1)
      orgnr ar d2 t2) orgnr ar = some ⟨orgnr, ar, d2, t2⟩ ∧
    findRow (upsertAnnualReport table orgnr ar d1 t1) orgnr ar =
      some ⟨orgnr, ar, d1, t1⟩ ∧
    (upsertAnnualReport (upsertAnnualReport table orgnr ar d1 t1)
      orgnr ar d2 t2).filter (fun r => !(keyMatch orgnr ar r)) =
      table.filter (fun r => !(keyMatch orgnr ar r)) := by
  obtain ⟨h1, h2, h3⟩ := upsert_once table orgnr ar d1 t1 hpk
  obtain ⟨g1, g2, g3⟩ := upsert_once (upsertAnnualReport table orgnr ar d1 t1)
    orgnr ar d2 t2 (by omega)
  exact ⟨g1, g2, h2, by rw [g3, h3]⟩

/-- Witness for the C9 theorem on an initially empty table. -/
theorem upsert_twice_idempotent_witness :
    keyCount (upsertAnnualReport (upsertAnnualReport [] ("910000001".toList) 2023
      ("p1".toList) 1) ("910000001".toList) 2023 ("p2".toList) 2)
      ("910000001".toList) 2023 = 1 ∧
    findRow (upsertAnnualReport (upsertAnnualReport [] ("910000001".toList) 2023
      ("p1".toList) 1) ("910000001".toList) 2023 ("p2".toList) 2)
      ("910000001".toList) 2023 = some ⟨"910000001".toList, 2023, "p2".toList, 2⟩ ∧
    findRow (upsertAnnualReport [] ("910000001".toList) 2023 ("p1".toList) 1)
      ("910000001".toList) 2023 = some ⟨"910000001".toList, 2023, "p1".toList, 1⟩ ∧
    (upsertAnnualReport (upsertAnnualReport [] ("910000001".toList) 2023
      ("p1".toList) 1) ("910000001".toList) 2023 ("p2".toList) 2).filter
      (fun r => !(keyMatch ("910000001".toList) 2023 r)) =
      ([] : List ReportRow).filter (fun r => !(keyMatch ("910000001".toList) 2023 r)) :=
  upsert_twice_idempotent [] ("910000001".toList) 2023 ("p1".toList)
    ("p2".toList) 1 2 (by decide)

/-! ## Claim C10: bounded year-by-year collection -/

/-- C10 counterexample: with maxResults 0 the loop still returns one entry once
any year yields a filing, because the length check runs only after the push;
the returned list is not bounded by maxResults. -/
theorem fetch_entries_zero_maxresults :
    (fetchRegnskapApiEntries (fun _ => some (0 : Nat)) 2023 2023 0).length = 1 ∧
    ¬ ((fetchRegnskapApiEntries (fun _ => some (0 : Nat)) 2023 2023 0).length ≤ 0) := by
  exact ⟨by decide, by decide⟩

theorem fetchLoop_length_le {α : Type} (fetch : Int → Option α) (maxResults : Nat) :
    ∀ (years : List Int) (acc : List α), acc.length < maxResults →
      (fetchRegnskapApiEntriesLoop fetch maxResults years acc).length ≤ maxResults := by
  intro years
  induction years with
  | nil =>
    intro acc h
    simpa [fetchRegnskapApiEntriesLoop] using Nat.le_of_lt h
  | cons y ys ih =>
    intro acc h
    simp only [fetchRegnskapApiEntriesLoop]
    cases hf : fetch y with
    | none => exact ih acc h
    | some e =>
      simp only []
      split
      next hle => simpa using h
      next hgt =>
        refine ih (acc ++ [e]) ?_
        simp only [List.length_append, List.length_singleton] at hgt ⊢
        omega

/-- C10 (amended): for every positive maxResults (the source default is 10)
the year-by-year fetch returns at most maxResults entries — it stops scanning
further years as soon as that many filings have been collected; with
maxResults zero it can still return one entry, so the bound is
max(maxResults, 1). -/
theorem fetch_entries_bounded {α : Type} (fetch : Int → Option α)
    (minYear maxYear : Int) (maxResults : Nat) (hmax : 1 ≤ maxResults) :
    (fetchRegnskapApiEntries fetch minYear maxYear maxResults).length ≤ maxResults :=
  fetchLoop_length_le fetch maxResults (descYears maxYear minYear) []
    (by simpa using hmax)

/-- Witness for the amended C10 theorem at the default bound 10. -/
theorem fetch_entries_bounded_witness :
    (fetchRegnskapApiEntries (fun _ => some (0 : Nat)) 2014 2023 10).length ≤ 10 :=
  fetch_entries_bounded (fun _ => some 0) 2014 2023 10 (by decide)

end BrRegister
